import Mathlib

/-!
Shallow embedding of the dependency-resolution engine of the Python Gazelle
plugin (file `gazelle/resolve.go`, function `Resolver.Resolve` and its
helpers `targetListFromResults` and `convertDependencySetToExpr`).

Strings are modelled by `String`; the operations the Go code takes from the
standard library (`strings.Split` on `"."`, `strings.HasPrefix`,
`strings.Join`, and the tree-set string comparator) are given as executable
functions over the character data so that concrete runs evaluate inside the
kernel.  External collaborators of the resolver (the override table, the
third-party map, the rule index, and the standard-library classifier) are
passed in as a record of functions, exactly at the interface the Go code
consumes them.
-/

/-! ## String primitives (models of the Go standard-library calls) -/

/-- Splitting a character list at a separator character.  Models Go
`strings.Split` for a one-character separator: the result always has one more
group than there are separator occurrences, so it is never empty. -/
def splitChars (sep : Char) : List Char → List (List Char)
  | [] => [[]]
  | c :: cs =>
    let r := splitChars sep cs
    if c = sep then [] :: r
    else
      match r with
      | [] => [[c]]
      | g :: gs => (c :: g) :: gs

/-- Model of `strings.Split(name, ".")` from line 149 of `resolve.go`. -/
def splitOnDot (s : String) : List String :=
  (splitChars '.' s.data).map (fun cs => String.mk cs)

/-- Lexicographic order on character lists, by code point.  Models the byte
order that the Go tree-set string comparator uses (UTF-8 byte order agrees
with code-point order). -/
def charsLt : List Char → List Char → Bool
  | [], [] => false
  | [], _ :: _ => true
  | _ :: _, [] => false
  | a :: as, b :: bs => if a < b then true else if b < a then false else charsLt as bs

/-- Lexicographic string order: the comparator of the `deps` tree set
(`godsutils.StringComparator` at line 137 of `resolve.go`). -/
def strLt (a b : String) : Bool := charsLt a.data b.data

/-- Character-list version of the Go `strings.HasPrefix` test. -/
def charsStartWith : List Char → List Char → Bool
  | [], _ => true
  | _ :: _, [] => false
  | a :: as, b :: bs => a = b && charsStartWith as bs

/-- Model of `strings.HasPrefix(s, p)` (line 231 of `resolve.go`). -/
def strStartsWith (s p : String) : Bool := charsStartWith p.data s.data

/-! ## Data model -/

/-- Bazel target label.  Modelled from the spec: `TargetLabel` is
`{repository, package, name}` with a canonical string form; the gazelle
`label.Label` type lives outside this repository. -/
structure Label where
  repo : String
  pkg : String
  name : String
  deriving DecidableEq, Repr, Inhabited

/-- Canonical string form of a label.  Modelled from the spec: a
`TargetLabel` "has a canonical string form"; an empty repository component
(meaning the current repository) is not printed. -/
def labelString (l : Label) : String :=
  (if l.repo = "" then "" else "@" ++ l.repo) ++ "//" ++ l.pkg ++ ":" ++ l.name

/-- Relativization of a label, used at line 245 of `resolve.go`
(`Label.Rel(from.Repo, from.Pkg)`).  Modelled from the spec: the relativize
operation "drops the repository/package components when resolving within the
same scope". -/
def Label.Rel (l : Label) (repo pkg : String) : Label :=
  if l.repo = repo then
    if l.pkg = pkg then { repo := "", pkg := "", name := l.name }
    else { repo := "", pkg := l.pkg, name := l.name }
  else l

/-- One import statement extracted from one Python source file: the `module`
struct consumed by `Resolver.Resolve` (fields `Name`, `Filepath`,
`LineNumber`). -/
structure module where
  Name : String
  Filepath : String
  LineNumber : Nat
  deriving DecidableEq, Repr, Inhabited

/-- One match returned by the rule index
(`resolve.FindResult`, of which the resolver reads only the label). -/
structure FindResult where
  label : Label
  deriving DecidableEq, Repr, Inhabited

/-- Modelled from the spec: a self-import match is one whose "label equals
the importing target" (the gazelle `FindResult.IsSelfImport` method lives
outside this repository). -/
def FindResult.IsSelfImport (m : FindResult) (frm : Label) : Bool :=
  m.label = frm

/-- The external collaborators consumed by one resolution pass, fixed for the
whole pass: `resolve.FindRuleWithOverride` (for language `py`),
`cfg.FindThirdPartyDependency`, `ix.FindRulesByImportWithConfig`,
`isStdModule` (where `none` models the error return of the classifier),
`cfg.ValidateImportStatements` and `cfg.PythonProjectRoot`. -/
structure ResolveEnv where
  FindRuleWithOverride : String → Option Label
  FindThirdPartyDependency : String → Option String
  FindRulesByImportWithConfig : String → List FindResult
  isStdModule : String → Option Bool
  ValidateImportStatements : Bool
  PythonProjectRoot : String

/-- The errors accumulated in the per-import `errs` slice of
`Resolver.Resolve`: the invalid-dependency error of lines 206-213 and the
multiple-targets ambiguity error of lines 236-240 (represented structurally;
the `targets` field carries the joined list built by
`targetListFromResults`). -/
inductive ResolutionError where
  | invalidDependency (moduleName : String) (lineNumber : Nat) (filepath : String)
  | multipleTargets (targets : String) (moduleName : String) (lineNumber : Nat)
      (filepath : String)
  deriving DecidableEq, Repr

/-- `targetListFromResults` of `resolve.go` (lines 286-292). -/
def targetListFromResults (results : List FindResult) : String :=
  String.intercalate ", " (results.map (fun result => labelString result.label))

/-! ## The per-candidate step (body of `POSSIBLE_MODULE_LOOP`) -/

/-- How one candidate of the fallback sequence ends: `addDep` models
`deps.Add(dep)` followed by `continue MODULES_LOOP`; `resolvedNothing`
models `continue MODULES_LOOP` without adding a dependency; `nextCandidate`
models `continue POSSIBLE_MODULE_LOOP` (or falling off the branch, which in
the Go code also moves to the next candidate). -/
inductive StepOutcome where
  | addDep (dep : String)
  | resolvedNothing
  | nextCandidate
  deriving DecidableEq, Repr

/-- Result of processing one candidate: the outcome, the errors appended to
the per-import `errs` slice, the query sent to the standard-library
classifier (if any), and whether the classifier returned an error
(`hasFatalError = true` at line 201). -/
structure StepResult where
  outcome : StepOutcome
  errs : List ResolutionError
  stdQuery : Option String
  stdFatal : Bool
  deriving DecidableEq, Repr

/-- Line 168-169: an override label with empty repository defaults to the
repository of the importing target. -/
def overrideDefault (o frm : Label) : Label :=
  if o.repo = "" then { o with repo := frm.repo } else o

/-- Lines 172-174: before printing, an override in the same repository as the
importing target drops its repository component. -/
def overrideRel (o frm : Label) : Label :=
  if o.repo = frm.repo then { o with repo := "" } else o

/-- Lines 217-255 of `resolve.go`: self-import filtering, project-root
disambiguation and the final `deps.Add` for the index matches of one
candidate (the Go variable is named like the Lean keyword, hence
`matchList`).  `stdQuery` records whether the standard-library classifier
was already queried for this candidate (the fall-through from the
empty-match block at lines 197-216). -/
def resolveIndexMatches (env : ResolveEnv) (frm : Label) (mod : module)
    (moduleName : String) (matchList : List FindResult) (stdQuery : Option String) :
    StepResult :=
  if matchList.any (fun m => m.IsSelfImport frm) then
    -- line 219-222: any self-import match resolves the whole import to nothing
    { outcome := .resolvedNothing, errs := [], stdQuery := stdQuery, stdFatal := false }
  else
    let filteredMatches := matchList.filter (fun m => !(m.IsSelfImport frm))
    if filteredMatches.length = 0 then
      -- lines 225-227
      { outcome := .nextCandidate, errs := [], stdQuery := stdQuery, stdFatal := false }
    else if filteredMatches.length > 1 then
      -- lines 228-244
      let sameRootMatches := filteredMatches.filter
        (fun m => strStartsWith m.label.pkg env.PythonProjectRoot)
      if sameRootMatches.length ≠ 1 then
        { outcome := .nextCandidate,
          errs := [.multipleTargets (targetListFromResults filteredMatches)
            moduleName mod.LineNumber mod.Filepath],
          stdQuery := stdQuery, stdFatal := false }
      else
        -- lines 243-247 with filteredMatches replaced by sameRootMatches
        { outcome := .addDep
            (labelString ((sameRootMatches.headD default).label.Rel frm.repo frm.pkg)),
          errs := [], stdQuery := stdQuery, stdFatal := false }
    else
      -- lines 245-247: exactly one filtered match
      { outcome := .addDep
          (labelString ((filteredMatches.headD default).label.Rel frm.repo frm.pkg)),
        errs := [], stdQuery := stdQuery, stdFatal := false }

/-- Lines 165-256 of `resolve.go`: the body of `POSSIBLE_MODULE_LOOP` for a
single candidate `moduleName` of the fallback sequence. -/
def resolvePossibleModule (env : ResolveEnv) (frm : Label) (mod : module)
    (moduleName : String) : StepResult :=
  match env.FindRuleWithOverride moduleName with
  | some o =>
    -- lines 167-184
    let override := overrideDefault o frm
    if override ≠ frm then
      { outcome := .addDep (labelString (overrideRel override frm)),
        errs := [], stdQuery := none, stdFatal := false }
    else
      -- an override equal to the importing target: fall off the branch,
      -- which moves on to the next candidate of the fallback sequence
      { outcome := .nextCandidate, errs := [], stdQuery := none, stdFatal := false }
  | none =>
    match env.FindThirdPartyDependency moduleName with
    | some dep =>
      -- lines 186-194
      { outcome := .addDep dep, errs := [], stdQuery := none, stdFatal := false }
    | none =>
      -- lines 196-255
      let matchList := env.FindRulesByImportWithConfig moduleName
      if matchList.length = 0 then
        match env.isStdModule moduleName with
        | none =>
          -- lines 199-202: classifier error, `hasFatalError = true`
          { outcome := .nextCandidate, errs := [], stdQuery := some moduleName,
            stdFatal := true }
        | some true =>
          -- lines 203-204
          { outcome := .resolvedNothing, errs := [], stdQuery := some moduleName,
            stdFatal := false }
        | some false =>
          if env.ValidateImportStatements then
            -- lines 205-214
            { outcome := .nextCandidate,
              errs := [.invalidDependency moduleName mod.LineNumber mod.Filepath],
              stdQuery := some moduleName, stdFatal := false }
          else
            -- fall through to the filtering block with the empty match list
            resolveIndexMatches env frm mod moduleName matchList (some moduleName)
      else
        resolveIndexMatches env frm mod moduleName matchList none

/-! ## The fallback sequence and the per-import loop -/

/-- The loop of lines 151-162 of `resolve.go`: repeatedly drop the last
dotted component and append the rejoined name.  Written with explicit fuel
(the loop runs at most `length - 1` times) so that it computes by kernel
reduction. -/
def fallbackModulesGo (fuel : Nat) (moduleParts : List String) : List String :=
  match fuel with
  | 0 => []
  | f + 1 =>
    if 1 < moduleParts.length then
      String.intercalate "." moduleParts.dropLast ::
        fallbackModulesGo f moduleParts.dropLast
    else []

/-- Lines 149-162 of `resolve.go`: the fallback sequence `possibleModules`,
starting with the full module name. -/
def possibleModules (name : String) : List String :=
  let moduleParts := splitOnDot name
  name :: fallbackModulesGo moduleParts.length moduleParts

/-- Outcome of one whole import: a dependency string was added, the import
was resolved to nothing, or the fallback sequence was exhausted (the loop
fell through to the `len(errs) > 0` check of lines 258-266). -/
inductive ImportOutcome where
  | dep (d : String)
  | resolvedNothing
  | exhausted
  deriving DecidableEq, Repr

/-- Result of processing one import record: its outcome, the accumulated
per-import `errs` slice, the names sent to the standard-library classifier in
order, whether any classifier call failed, and the candidates of the fallback
sequence that were actually tried, in order. -/
structure ImportResult where
  outcome : ImportOutcome
  errs : List ResolutionError
  stdQueries : List String
  stdFatal : Bool
  attempted : List String
  deriving DecidableEq, Repr

/-- `POSSIBLE_MODULE_LOOP` (lines 164-257): process the candidates in order,
stopping at the first one that ends the import (`continue MODULES_LOOP` in
the Go code), accumulating `errs`, classifier queries and the classifier
failure flag along the way. -/
def possibleModuleLoop (env : ResolveEnv) (frm : Label) (mod : module) :
    List String → ImportResult
  | [] =>
    { outcome := .exhausted, errs := [], stdQueries := [], stdFatal := false,
      attempted := [] }
  | moduleName :: rest =>
    let s := resolvePossibleModule env frm mod moduleName
    match s.outcome with
    | .addDep d =>
      { outcome := .dep d, errs := s.errs, stdQueries := s.stdQuery.toList,
        stdFatal := s.stdFatal, attempted := [moduleName] }
    | .resolvedNothing =>
      { outcome := .resolvedNothing, errs := s.errs, stdQueries := s.stdQuery.toList,
        stdFatal := s.stdFatal, attempted := [moduleName] }
    | .nextCandidate =>
      let r := possibleModuleLoop env frm mod rest
      { outcome := r.outcome, errs := s.errs ++ r.errs,
        stdQueries := s.stdQuery.toList ++ r.stdQueries,
        stdFatal := s.stdFatal || r.stdFatal,
        attempted := moduleName :: r.attempted }

/-- One iteration of `MODULES_LOOP` (lines 146-267): resolve one import
record through its fallback sequence. -/
def resolveModule (env : ResolveEnv) (frm : Label) (mod : module) : ImportResult :=
  possibleModuleLoop env frm mod (possibleModules mod.Name)

/-- Lines 258-266: after the fallback sequence is exhausted, a non-empty
`errs` slice is reported and sets `hasFatalError`.  An import that resolved
(`continue MODULES_LOOP`) skips this check, discarding its accumulated
errors. -/
def importFailsValidation (r : ImportResult) : Bool :=
  (decide (r.outcome = .exhausted)) && !r.errs.isEmpty

/-! ## The dependency set and the whole pass -/

/-- Insertion into the sorted duplicate-free dependency set: the model of
`deps.Add` on the tree set of line 137. -/
def depsAdd : List String → String → List String
  | [], dep => [dep]
  | x :: xs, dep =>
    if strLt dep x then dep :: x :: xs
    else if dep = x then x :: xs
    else x :: depsAdd xs dep

/-- Build-file expressions, as much of `bzl.Expr` as
`convertDependencySetToExpr` produces. -/
inductive bzlExpr where
  | stringExpr (value : String)
  | listExpr (list : List bzlExpr)

/-- `convertDependencySetToExpr` of `resolve.go` (lines 296-304). -/
def convertDependencySetToExpr (set : List String) : bzlExpr :=
  .listExpr (set.map (fun dep => .stringExpr dep))

/-- Observable result of one `Resolver.Resolve` pass: the per-import
results, the contents of the `deps` tree set, whether `os.Exit(1)` was
reached (`hasFatalError`), and the attributes of the rule after the pass. -/
structure PassResult where
  results : List ImportResult
  deps : List String
  hasFatalError : Bool
  attrs : String → Option bzlExpr

/-- `Resolver.Resolve` (lines 126-282).  `modules` is the list of import
records (a `nil` `modulesRaw` behaves exactly like the empty list: the loop
body never runs); `resolvedDeps` is the pre-resolved private attribute
merged at lines 272-278; `attrs` is the attribute map of the rule `r`.  When
`hasFatalError` is set the pass exits before merging the pre-resolved set
and before writing any attribute; otherwise `deps` is written only when
non-empty (lines 279-281).  The `EXPLAIN_DEPENDENCY` logging is a
diagnostic side channel and is not modelled. -/
def Resolve (env : ResolveEnv) (frm : Label) (modules : List module)
    (resolvedDeps : List String) (attrs : String → Option bzlExpr) : PassResult :=
  let results := modules.map (resolveModule env frm)
  let deps := results.foldl
    (fun acc r => match r.outcome with | .dep d => depsAdd acc d | _ => acc) []
  let hasFatalError := results.any (fun r => r.stdFatal || importFailsValidation r)
  if hasFatalError then
    { results := results, deps := deps, hasFatalError := true, attrs := attrs }
  else
    let deps := resolvedDeps.foldl depsAdd deps
    { results := results, deps := deps, hasFatalError := false,
      attrs :=
        if deps.isEmpty then attrs
        else fun k =>
          if k = "deps" then some (convertDependencySetToExpr deps) else attrs k }

/-- The per-import error lists that the pass reports (the `log.Printf` at
line 264 happens exactly for the imports that fail validation). -/
def emittedValidationErrs (p : PassResult) : List (List ResolutionError) :=
  (p.results.filter importFailsValidation).map (fun r => r.errs)

/-! ## Order lemmas for the dependency-set comparator -/

theorem charsLt_irrefl (l : List Char) : charsLt l l = false := by
  induction l with
  | nil => rfl
  | cons a as ih => simp [charsLt, ih]

theorem charsLt_asymm (a b : List Char) (h : charsLt a b = true) :
    charsLt b a = false := by
  induction a generalizing b with
  | nil =>
    cases b with
    | nil => simp [charsLt] at h
    | cons y ys => rfl
  | cons x xs ih =>
    cases b with
    | nil => simp [charsLt] at h
    | cons y ys =>
      rcases lt_trichotomy x y with hxy | hxy | hxy
      · simp [charsLt, hxy, not_lt_of_lt hxy]
      · subst hxy
        simp only [charsLt, lt_self_iff_false, if_false] at h ⊢
        exact ih ys h
      · simp [charsLt, hxy, not_lt_of_lt hxy] at h

theorem charsLt_trans (a b c : List Char) (hab : charsLt a b = true)
    (hbc : charsLt b c = true) : charsLt a c = true := by
  induction a generalizing b c with
  | nil =>
    cases c with
    | nil =>
      cases b with
      | nil => simp [charsLt] at hab
      | cons y ys => simp [charsLt] at hbc
    | cons z zs => rfl
  | cons x xs ih =>
    cases b with
    | nil => simp [charsLt] at hab
    | cons y ys =>
      cases c with
      | nil => simp [charsLt] at hbc
      | cons z zs =>
        rcases lt_trichotomy x y with hxy | hxy | hxy
        · rcases lt_trichotomy y z with hyz | hyz | hyz
          · simp [charsLt, lt_trans hxy hyz]
          · subst hyz; simp [charsLt, hxy]
          · rcases lt_trichotomy x z with hxz | hxz | hxz
            · simp [charsLt, hxz]
            · subst hxz; simp [charsLt, hyz, not_lt_of_lt hyz] at hbc
            · simp [charsLt, hyz, not_lt_of_lt hyz] at hbc
        · subst hxy
          rcases lt_trichotomy x z with hxz | hxz | hxz
          · simp [charsLt, hxz]
          · subst hxz
            simp only [charsLt, lt_self_iff_false, if_false] at hab hbc ⊢
            exact ih ys zs hab hbc
          · simp only [charsLt, lt_self_iff_false, if_false] at hab
            rcases lt_trichotomy x z with h | h | h
            · exact absurd h (not_lt_of_lt hxz)
            · exact absurd h.symm (ne_of_lt hxz)
            · simp [charsLt, h, not_lt_of_lt h] at hbc
        · simp [charsLt, hxy, not_lt_of_lt hxy] at hab

theorem charsLt_connex (a b : List Char) (h1 : charsLt a b = false)
    (h2 : charsLt b a = false) : a = b := by
  induction a generalizing b with
  | nil =>
    cases b with
    | nil => rfl
    | cons y ys => simp [charsLt] at h1
  | cons x xs ih =>
    cases b with
    | nil => simp [charsLt] at h2
    | cons y ys =>
      rcases lt_trichotomy x y with hxy | hxy | hxy
      · simp [charsLt, hxy] at h1
      · subst hxy
        simp only [charsLt, lt_self_iff_false, if_false] at h1 h2
        rw [ih ys h1 h2]
      · simp [charsLt, hxy] at h2

theorem strLt_irrefl (s : String) : strLt s s = false := charsLt_irrefl s.data

theorem strLt_asymm (a b : String) (h : strLt a b = true) : strLt b a = false :=
  charsLt_asymm a.data b.data h

theorem strLt_trans (a b c : String) (hab : strLt a b = true)
    (hbc : strLt b c = true) : strLt a c = true :=
  charsLt_trans a.data b.data c.data hab hbc

theorem strLt_connex (a b : String) (h1 : strLt a b = false)
    (h2 : strLt b a = false) : a = b := by
  cases a with
  | mk da =>
    cases b with
    | mk db => exact congrArg String.mk (charsLt_connex da db h1 h2)

theorem strLt_total (a b : String) (hne : a ≠ b) :
    strLt a b = true ∨ strLt b a = true := by
  by_cases h1 : strLt a b = true
  · exact Or.inl h1
  · by_cases h2 : strLt b a = true
    · exact Or.inr h2
    · exact absurd (strLt_connex a b (by simpa using h1) (by simpa using h2)) hne

/-! ## Lemmas about the dependency set -/

theorem mem_depsAdd (l : List String) (dep x : String) :
    x ∈ depsAdd l dep ↔ x = dep ∨ x ∈ l := by
  induction l with
  | nil => simp [depsAdd]
  | cons y ys ih =>
    by_cases h1 : strLt dep y = true
    · simp only [depsAdd, h1, if_true]
      simp
    · by_cases h2 : dep = y
      · subst h2
        simp only [depsAdd, h1, Bool.false_eq_true, if_false, if_pos rfl]
        simp
      · simp only [depsAdd, h1, Bool.false_eq_true, if_false, if_neg h2]
        simp [ih]
        tauto

theorem pairwise_depsAdd (l : List String) (dep : String)
    (h : l.Pairwise (fun a b => strLt a b = true)) :
    (depsAdd l dep).Pairwise (fun a b => strLt a b = true) := by
  induction l with
  | nil => simp [depsAdd]
  | cons y ys ih =>
    rw [List.pairwise_cons] at h
    by_cases h1 : strLt dep y = true
    · simp only [depsAdd, h1, if_true]
      rw [List.pairwise_cons]
      refine ⟨?_, List.pairwise_cons.mpr h⟩
      intro z hz
      rcases List.mem_cons.mp hz with rfl | hz
      · exact h1
      · exact strLt_trans dep y z h1 (h.1 z hz)
    · by_cases h2 : dep = y
      · subst h2
        simp only [depsAdd, h1, Bool.false_eq_true, if_false, if_pos rfl]
        exact List.pairwise_cons.mpr h
      · simp only [depsAdd, h1, Bool.false_eq_true, if_false, if_neg h2]
        rw [List.pairwise_cons]
        refine ⟨?_, ih h.2⟩
        intro z hz
        rcases (mem_depsAdd ys dep z).mp hz with rfl | hz
        · rcases strLt_total z y (fun hh => h2 hh) with h3 | h3
          · exact absurd h3 (by simpa using h1)
          · exact h3
        · exact h.1 z hz

theorem sorted_ext (l1 l2 : List String)
    (h1 : l1.Pairwise (fun a b => strLt a b = true))
    (h2 : l2.Pairwise (fun a b => strLt a b = true))
    (hm : ∀ x, x ∈ l1 ↔ x ∈ l2) : l1 = l2 := by
  induction l1 generalizing l2 with
  | nil =>
    cases l2 with
    | nil => rfl
    | cons y ys => exact absurd ((hm y).mpr (by simp)) (by simp)
  | cons x xs ih =>
    cases l2 with
    | nil => exact absurd ((hm x).mp (by simp)) (by simp)
    | cons y ys =>
      rw [List.pairwise_cons] at h1 h2
      have hxy : x = y := by
        rcases List.mem_cons.mp ((hm x).mp (by simp)) with h | hxys
        · exact h
        · rcases List.mem_cons.mp ((hm y).mpr (by simp)) with h | hyxs
          · exact h.symm
          · have ha := h2.1 x hxys
            have hb := h1.1 y hyxs
            exact absurd ha (by simp [strLt_asymm x y hb])
      subst hxy
      have htl : ∀ z, z ∈ xs ↔ z ∈ ys := by
        intro z
        constructor
        · intro hz
          rcases List.mem_cons.mp ((hm z).mp (List.mem_cons_of_mem _ hz)) with rfl | h
          · exact absurd (h1.1 z hz) (by simp [strLt_irrefl])
          · exact h
        · intro hz
          rcases List.mem_cons.mp ((hm z).mpr (List.mem_cons_of_mem _ hz)) with rfl | h
          · exact absurd (h2.1 z hz) (by simp [strLt_irrefl])
          · exact h
      rw [ih ys h1.2 h2.2 htl]

theorem mem_foldl_depsAdd (l : List String) (acc : List String) (x : String) :
    x ∈ l.foldl depsAdd acc ↔ x ∈ acc ∨ x ∈ l := by
  induction l generalizing acc with
  | nil => simp
  | cons d ds ih =>
    rw [List.foldl_cons, ih]
    simp [mem_depsAdd]
    tauto

theorem pairwise_foldl_depsAdd (l : List String) (acc : List String)
    (h : acc.Pairwise (fun a b => strLt a b = true)) :
    (l.foldl depsAdd acc).Pairwise (fun a b => strLt a b = true) := by
  induction l generalizing acc with
  | nil => exact h
  | cons d ds ih => exact ih (depsAdd acc d) (pairwise_depsAdd acc d h)

theorem foldl_depsAdd_perm (l1 l2 : List String) (acc : List String)
    (hp : l1.Perm l2) (h : acc.Pairwise (fun a b => strLt a b = true)) :
    l1.foldl depsAdd acc = l2.foldl depsAdd acc := by
  refine sorted_ext _ _ (pairwise_foldl_depsAdd l1 acc h)
    (pairwise_foldl_depsAdd l2 acc h) (fun x => ?_)
  rw [mem_foldl_depsAdd, mem_foldl_depsAdd, hp.mem_iff]

/-- The dependency string an import contributes to the `deps` set, if any. -/
def importDep (r : ImportResult) : Option String :=
  match r.outcome with
  | .dep d => some d
  | _ => none

theorem depsFold_eq_filterMap (results : List ImportResult) (acc : List String) :
    results.foldl
        (fun acc r => match r.outcome with | .dep d => depsAdd acc d | _ => acc) acc
      = (results.filterMap importDep).foldl depsAdd acc := by
  induction results generalizing acc with
  | nil => rfl
  | cons r rs ih =>
    cases ho : r.outcome with
    | dep d => simp [List.foldl_cons, List.filterMap_cons, importDep, ho, ih]
    | resolvedNothing => simp [List.foldl_cons, List.filterMap_cons, importDep, ho, ih]
    | exhausted => simp [List.foldl_cons, List.filterMap_cons, importDep, ho, ih]

/-! ## Lemmas about the candidate loop -/

theorem stdQuery_resolveIndexMatches (env : ResolveEnv) (frm : Label) (mod : module)
    (moduleName : String) (matchList : List FindResult) (q : Option String) :
    (resolveIndexMatches env frm mod moduleName matchList q).stdQuery = q := by
  unfold resolveIndexMatches
  dsimp only
  split
  · rfl
  · split
    · rfl
    · split
      · split
        · rfl
        · rfl
      · rfl

/-- The condition under which the Go code reaches the standard-library
check for a candidate: no override, no third-party hit, no index match. -/
def needsStdCheck (env : ResolveEnv) (m : String) : Bool :=
  (env.FindRuleWithOverride m).isNone &&
    ((env.FindThirdPartyDependency m).isNone &&
      decide ((env.FindRulesByImportWithConfig m).length = 0))

theorem stdQuery_resolvePossibleModule (env : ResolveEnv) (frm : Label)
    (mod : module) (m : String) :
    (resolvePossibleModule env frm mod m).stdQuery =
      if needsStdCheck env m then some m else none := by
  cases ho : env.FindRuleWithOverride m with
  | some o =>
    simp only [resolvePossibleModule, needsStdCheck, ho, Option.isNone_some,
      Bool.false_and, Bool.false_eq_true, if_false]
    split
    · rfl
    · rfl
  | none =>
    cases ht : env.FindThirdPartyDependency m with
    | some dep => simp [resolvePossibleModule, needsStdCheck, ho, ht]
    | none =>
      by_cases hl : (env.FindRulesByImportWithConfig m).length = 0
      · cases hs : env.isStdModule m with
        | none => simp [resolvePossibleModule, needsStdCheck, ho, ht, hl, hs]
        | some b =>
          cases b with
          | true => simp [resolvePossibleModule, needsStdCheck, ho, ht, hl, hs]
          | false =>
            by_cases hv : env.ValidateImportStatements
            · simp [resolvePossibleModule, needsStdCheck, ho, ht, hl, hs, hv]
            · simp [resolvePossibleModule, needsStdCheck, ho, ht, hl, hs, hv,
                stdQuery_resolveIndexMatches]
      · simp [resolvePossibleModule, needsStdCheck, ho, ht, hl,
          stdQuery_resolveIndexMatches]

theorem stdQueries_eq_filter_attempted (env : ResolveEnv) (frm : Label)
    (mod : module) (cands : List String) :
    (possibleModuleLoop env frm mod cands).stdQueries =
      (possibleModuleLoop env frm mod cands).attempted.filter (needsStdCheck env) := by
  induction cands with
  | nil => rfl
  | cons m rest ih =>
    have hq := stdQuery_resolvePossibleModule env frm mod m
    cases ho : (resolvePossibleModule env frm mod m).outcome with
    | addDep d =>
      simp only [possibleModuleLoop, ho, hq, List.filter_cons]
      by_cases hc : needsStdCheck env m <;> simp [hc]
    | resolvedNothing =>
      simp only [possibleModuleLoop, ho, hq, List.filter_cons]
      by_cases hc : needsStdCheck env m <;> simp [hc]
    | nextCandidate =>
      simp only [possibleModuleLoop, ho, hq, List.filter_cons]
      by_cases hc : needsStdCheck env m <;> simp [hc, ih]

/-- Whether a candidate ends the whole import, and with which outcome. -/
def stepStops : StepOutcome → Option ImportOutcome
  | .addDep d => some (.dep d)
  | .resolvedNothing => some .resolvedNothing
  | .nextCandidate => none

theorem possibleModuleLoop_stop (env : ResolveEnv) (frm : Label) (mod : module)
    (pre : List String) (m : String) (post : List String) (o : ImportOutcome)
    (hpre : ∀ x ∈ pre, (resolvePossibleModule env frm mod x).outcome = .nextCandidate)
    (hm : stepStops (resolvePossibleModule env frm mod m).outcome = some o) :
    (possibleModuleLoop env frm mod (pre ++ m :: post)).outcome = o ∧
    (possibleModuleLoop env frm mod (pre ++ m :: post)).attempted = pre ++ [m] := by
  induction pre with
  | nil =>
    cases ho : (resolvePossibleModule env frm mod m).outcome with
    | addDep d =>
      rw [ho] at hm
      simp only [stepStops, Option.some.injEq] at hm
      simp [possibleModuleLoop, ho, ← hm]
    | resolvedNothing =>
      rw [ho] at hm
      simp only [stepStops, Option.some.injEq] at hm
      simp [possibleModuleLoop, ho, ← hm]
    | nextCandidate =>
      rw [ho] at hm
      simp [stepStops] at hm
  | cons x xs ih =>
    have hx := hpre x (by simp)
    have hrec := ih (fun y hy => hpre y (by simp [hy]))
    simp only [List.cons_append, possibleModuleLoop, hx]
    exact ⟨hrec.1, by simp [hrec.2]⟩

/-! ## Lemmas about the fallback sequence -/

theorem splitChars_ne_nil (sep : Char) (l : List Char) : splitChars sep l ≠ [] := by
  cases l with
  | nil => simp [splitChars]
  | cons c cs =>
    simp only [splitChars]
    split
    · simp
    · split
      · simp
      · simp

theorem splitOnDot_ne_nil (s : String) : splitOnDot s ≠ [] := by
  simp [splitOnDot, splitChars_ne_nil]

theorem length_fallbackModulesGo (fuel : Nat) (parts : List String)
    (h : parts.length ≤ fuel) :
    (fallbackModulesGo fuel parts).length = parts.length - 1 := by
  induction fuel generalizing parts with
  | zero =>
    simp only [fallbackModulesGo, List.length_nil]
    omega
  | succ f ih =>
    by_cases h1 : 1 < parts.length
    · simp only [fallbackModulesGo, h1, if_true, List.length_cons]
      rw [ih parts.dropLast (by simp [List.length_dropLast]; omega)]
      simp only [List.length_dropLast]
      omega
    · simp only [fallbackModulesGo, h1, if_false]
      simp only [List.length_nil]
      omega

theorem get_fallbackModulesGo (fuel : Nat) (parts : List String)
    (h : parts.length ≤ fuel) (i : Nat)
    (hi : i < (fallbackModulesGo fuel parts).length) :
    (fallbackModulesGo fuel parts).get ⟨i, hi⟩ =
      String.intercalate "." (parts.take (parts.length - 1 - i)) := by
  induction fuel generalizing parts i with
  | zero => simp [fallbackModulesGo] at hi
  | succ f ih =>
    by_cases h1 : 1 < parts.length
    · have hEq : fallbackModulesGo (f + 1) parts =
          String.intercalate "." parts.dropLast ::
            fallbackModulesGo f parts.dropLast := by
        simp only [fallbackModulesGo, h1, if_true]
      have hle : parts.dropLast.length ≤ f := by
        simp only [List.length_dropLast]
        omega
      revert hi
      rw [hEq]
      intro hi
      cases i with
      | zero =>
        rw [show (String.intercalate "." parts.dropLast ::
            fallbackModulesGo f parts.dropLast).get ⟨0, hi⟩ =
          String.intercalate "." parts.dropLast from rfl]
        rw [List.dropLast_eq_take]
        congr 2
      | succ j =>
        have hj : j < (fallbackModulesGo f parts.dropLast).length :=
          Nat.lt_of_succ_lt_succ hi
        rw [show (String.intercalate "." parts.dropLast ::
            fallbackModulesGo f parts.dropLast).get ⟨j + 1, hi⟩ =
          (fallbackModulesGo f parts.dropLast).get ⟨j, hj⟩ from rfl]
        rw [ih parts.dropLast hle j hj]
        rw [List.dropLast_eq_take, List.take_take]
        congr 2
        simp only [List.length_take, List.length_dropLast]
        omega
    · simp only [fallbackModulesGo, h1, if_false] at hi
      simp at hi

/-! ## Lemmas about the whole pass -/

theorem Resolve_results (env : ResolveEnv) (frm : Label) (modules : List module)
    (rd : List String) (attrs : String → Option bzlExpr) :
    (Resolve env frm modules rd attrs).results = modules.map (resolveModule env frm) := by
  unfold Resolve
  dsimp only
  split
  · rfl
  · rfl

theorem Resolve_hasFatalError (env : ResolveEnv) (frm : Label) (modules : List module)
    (rd : List String) (attrs : String → Option bzlExpr) :
    (Resolve env frm modules rd attrs).hasFatalError =
      (modules.map (resolveModule env frm)).any
        (fun r => r.stdFatal || importFailsValidation r) := by
  unfold Resolve
  dsimp only
  split
  next h => exact h.symm
  next h => simp only [Bool.not_eq_true] at h; exact h.symm

theorem Resolve_deps_eq (env : ResolveEnv) (frm : Label) (modules : List module)
    (rd : List String) (attrs : String → Option bzlExpr) :
    (Resolve env frm modules rd attrs).deps =
      (if (modules.map (resolveModule env frm)).any
          (fun r => r.stdFatal || importFailsValidation r)
       then ((modules.map (resolveModule env frm)).filterMap importDep).foldl depsAdd []
       else rd.foldl depsAdd
         (((modules.map (resolveModule env frm)).filterMap importDep).foldl
           depsAdd [])) := by
  unfold Resolve
  dsimp only
  split
  next h => exact depsFold_eq_filterMap _ _
  next h => rw [depsFold_eq_filterMap]

theorem Resolve_attrs_fatal (env : ResolveEnv) (frm : Label) (modules : List module)
    (rd : List String) (attrs : String → Option bzlExpr)
    (h : (modules.map (resolveModule env frm)).any
      (fun r => r.stdFatal || importFailsValidation r) = true) :
    (Resolve env frm modules rd attrs).attrs = attrs := by
  unfold Resolve
  dsimp only
  rw [if_pos h]

theorem Resolve_attrs_ok (env : ResolveEnv) (frm : Label) (modules : List module)
    (rd : List String) (attrs : String → Option bzlExpr)
    (h : (modules.map (resolveModule env frm)).any
      (fun r => r.stdFatal || importFailsValidation r) = false) :
    (Resolve env frm modules rd attrs).attrs =
      (if ((Resolve env frm modules rd attrs).deps).isEmpty then attrs
       else fun k =>
         if k = "deps"
         then some (convertDependencySetToExpr ((Resolve env frm modules rd attrs).deps))
         else attrs k) := by
  unfold Resolve
  dsimp only
  rw [if_neg (show ¬ _ = true by simp [h])]

theorem perm_any_eq {α : Type} (l1 l2 : List α) (p : α → Bool) (h : l1.Perm l2) :
    l1.any p = l2.any p := by
  cases h1 : l1.any p <;> cases h2 : l2.any p
  · rfl
  · rw [List.any_eq_false] at h1
    rw [List.any_eq_true] at h2
    obtain ⟨x, hx, hpx⟩ := h2
    exact absurd hpx (by simp [h1 x (h.mem_iff.mpr hx)])
  · rw [List.any_eq_true] at h1
    rw [List.any_eq_false] at h2
    obtain ⟨x, hx, hpx⟩ := h1
    exact absurd hpx (by simp [h2 x (h.mem_iff.mp hx)])
  · rfl

/-! ## Concrete fixtures used by the claim theorems -/

/-- The importing target used in concrete runs. -/
def frm0 : Label := { repo := "", pkg := "mypkg", name := "mylib" }

/-- A rule with no attributes set before the pass. -/
def attrs0 : String → Option bzlExpr := fun _ => none

/-- An environment with no overrides, no third-party mappings, an empty
index, a classifier that always answers false, and validation enabled. -/
def envNone : ResolveEnv :=
  { FindRuleWithOverride := fun _ => none
    FindThirdPartyDependency := fun _ => none
    FindRulesByImportWithConfig := fun _ => []
    isStdModule := fun _ => some false
    ValidateImportStatements := true
    PythonProjectRoot := "" }

/-- An import record for the dotted name `a.b`. -/
def modAB : module := { Name := "a.b", Filepath := "a/b.py", LineNumber := 1 }

/-- A first-party target under package `a/x`. -/
def la : Label := { repo := "", pkg := "a/x", name := "x" }

/-- A first-party target under package `b/y`. -/
def lb : Label := { repo := "", pkg := "b/y", name := "y" }

/-! ## Claim C1 -/

/-- Claim C1, counterexample.  In an environment where nothing matches and
the classifier answers false, the import `a.b` exhausts its fallback
sequence without resolving, yet the classifier is queried twice, once per
candidate, with the shortened candidate `a` included; it is not queried
exactly once with the original module name. -/
theorem c1_counterexample :
    (resolveModule envNone frm0 modAB).outcome = .exhausted ∧
    (resolveModule envNone frm0 modAB).stdQueries = ["a.b", "a"] ∧
    (resolveModule envNone frm0 modAB).stdQueries ≠ [modAB.Name] := by
  refine ⟨by decide, by decide, by decide⟩

/-- Claim C1, amended: the standard-library classifier is queried during the
fallback walk, once for each attempted candidate that has no override, no
third-party mapping and no index match, with the name of that candidate
(possibly a shortened one) — not once at the end with the original name. -/
theorem c1_classifier_queried_per_candidate (env : ResolveEnv) (frm : Label)
    (mod : module) :
    (resolveModule env frm mod).stdQueries =
      (resolveModule env frm mod).attempted.filter (needsStdCheck env) :=
  stdQueries_eq_filter_attempted env frm mod (possibleModules mod.Name)

/-! ## Claim C2 -/

/-- An environment whose override for `a.b` is the importing target itself
and whose third-party map resolves `a`. -/
def c2env : ResolveEnv :=
  { FindRuleWithOverride := fun m =>
      if m = "a.b" then some { repo := "", pkg := "mypkg", name := "mylib" } else none
    FindThirdPartyDependency := fun m => if m = "a" then some "@pip//a" else none
    FindRulesByImportWithConfig := fun _ => []
    isStdModule := fun _ => some false
    ValidateImportStatements := true
    PythonProjectRoot := "" }

/-- Claim C2, counterexample.  With a self-referring override on the first
candidate `a.b`, the import is not resolved to nothing and processing does
not stop: the second candidate `a` is tried and resolves through the
third-party map, adding a dependency. -/
theorem c2_counterexample :
    (resolveModule c2env frm0 modAB).outcome = .dep "@pip//a" ∧
    (resolveModule c2env frm0 modAB).attempted = ["a.b", "a"] := by
  refine ⟨by decide, by decide⟩

/-- Claim C2, amended: when an override directive exists for a candidate and
its label, after repository defaulting, equals the identity of the importing
target, that single candidate is skipped — no dependency is added and no
error is recorded for it — and the fallback sequence continues with the next
candidate (rather than stopping the whole import). -/
theorem c2_self_override_skips_candidate (env : ResolveEnv) (frm : Label)
    (mod : module) (m : String) (o : Label)
    (ho : env.FindRuleWithOverride m = some o)
    (heq : overrideDefault o frm = frm) :
    resolvePossibleModule env frm mod m =
      { outcome := .nextCandidate, errs := [], stdQuery := none, stdFatal := false } := by
  simp [resolvePossibleModule, ho, heq]

/-- Claim C2, witness for the amended theorem at a concrete input. -/
theorem c2_self_override_skips_candidate_witness :
    resolvePossibleModule c2env frm0 modAB "a.b" =
      { outcome := .nextCandidate, errs := [], stdQuery := none, stdFatal := false } :=
  c2_self_override_skips_candidate c2env frm0 modAB "a.b"
    { repo := "", pkg := "mypkg", name := "mylib" } (by decide) (by decide)

/-! ## Claim C3 -/

theorem resolveIndexMatches_of_noself (env : ResolveEnv) (frm : Label) (mod : module)
    (m : String) (matchList : List FindResult) (q : Option String)
    (hnoself : ∀ r ∈ matchList, r.IsSelfImport frm = false)
    (hmany : 1 < matchList.length) :
    resolveIndexMatches env frm mod m matchList q =
      (if (matchList.filter
          (fun r => strStartsWith r.label.pkg env.PythonProjectRoot)).length = 1
       then { outcome := .addDep (labelString
              (((matchList.filter
                  (fun r => strStartsWith r.label.pkg env.PythonProjectRoot)).headD
                default).label.Rel frm.repo frm.pkg)),
              errs := [], stdQuery := q, stdFatal := false }
       else { outcome := .nextCandidate,
              errs := [.multipleTargets (targetListFromResults matchList)
                m mod.LineNumber mod.Filepath],
              stdQuery := q, stdFatal := false }) := by
  have hlen0 : ¬ matchList.length = 0 := by omega
  have hany : matchList.any (fun r => r.IsSelfImport frm) = false := by
    rw [List.any_eq_false]
    intro r hr
    simp [hnoself r hr]
  have hfilt : matchList.filter (fun r => !(r.IsSelfImport frm)) = matchList := by
    rw [List.filter_eq_self]
    intro r hr
    simp [hnoself r hr]
  unfold resolveIndexMatches
  rw [hany]
  dsimp only
  rw [hfilt]
  rw [if_neg (by simp), if_neg hlen0, if_pos hmany]
  by_cases hsr : (matchList.filter
      (fun r => strStartsWith r.label.pkg env.PythonProjectRoot)).length = 1
  · rw [if_neg (by simp [hsr]), if_pos hsr]
  · rw [if_pos hsr, if_neg hsr]

/-- An index with a self-import match plus two other targets providing
`a.b`, with the project root selecting exactly one of them. -/
def c3env : ResolveEnv :=
  { FindRuleWithOverride := fun _ => none
    FindThirdPartyDependency := fun _ => none
    FindRulesByImportWithConfig := fun m =>
      if m = "a.b" then [{ label := frm0 }, { label := la }, { label := lb }] else []
    isStdModule := fun _ => some false
    ValidateImportStatements := true
    PythonProjectRoot := "a" }

/-- Claim C3, counterexample.  Two matches remain after self-import
filtering and the project root selects exactly one of them, so the claim
requires that match to become the resolved dependency; but because a
self-import match was present among the raw matches, the code resolves the
whole import to nothing instead: no dependency and no error. -/
theorem c3_counterexample :
    ((c3env.FindRulesByImportWithConfig "a.b").filter
      (fun r => !(r.IsSelfImport frm0))).length = 2 ∧
    (((c3env.FindRulesByImportWithConfig "a.b").filter
        (fun r => !(r.IsSelfImport frm0))).filter
      (fun r => strStartsWith r.label.pkg c3env.PythonProjectRoot)).length = 1 ∧
    resolvePossibleModule c3env frm0 modAB "a.b" =
      { outcome := .resolvedNothing, errs := [], stdQuery := none, stdFatal := false } := by
  refine ⟨by decide, by decide, by decide⟩

/-- Claim C3, amended: provided no raw index match is a self-import (any
self-import resolves the whole import to nothing first), a candidate with
more than one match is restricted to the matches whose package starts with
the configured project root; exactly one remaining match becomes the
resolved dependency, and otherwise a multiple-targets error listing all
pre-restriction candidate labels is recorded and no dependency is added for
that candidate. -/
theorem c3_ambiguity_restriction (env : ResolveEnv) (frm : Label) (mod : module)
    (m : String)
    (hov : env.FindRuleWithOverride m = none)
    (htp : env.FindThirdPartyDependency m = none)
    (hnoself : ∀ r ∈ env.FindRulesByImportWithConfig m, r.IsSelfImport frm = false)
    (hmany : 1 < (env.FindRulesByImportWithConfig m).length) :
    (((env.FindRulesByImportWithConfig m).filter
        (fun r => strStartsWith r.label.pkg env.PythonProjectRoot)).length = 1 →
      resolvePossibleModule env frm mod m =
        { outcome := .addDep (labelString
            ((((env.FindRulesByImportWithConfig m).filter
                (fun r => strStartsWith r.label.pkg env.PythonProjectRoot)).headD
              default).label.Rel frm.repo frm.pkg)),
          errs := [], stdQuery := none, stdFatal := false }) ∧
    (((env.FindRulesByImportWithConfig m).filter
        (fun r => strStartsWith r.label.pkg env.PythonProjectRoot)).length ≠ 1 →
      resolvePossibleModule env frm mod m =
        { outcome := .nextCandidate,
          errs := [.multipleTargets
            (targetListFromResults (env.FindRulesByImportWithConfig m))
            m mod.LineNumber mod.Filepath],
          stdQuery := none, stdFatal := false }) := by
  have hstep : resolvePossibleModule env frm mod m =
      resolveIndexMatches env frm mod m (env.FindRulesByImportWithConfig m) none := by
    simp only [resolvePossibleModule, hov, htp]
    rw [if_neg (by omega)]
  have key := resolveIndexMatches_of_noself env frm mod m
    (env.FindRulesByImportWithConfig m) none hnoself hmany
  constructor
  · intro h1
    rw [hstep, key, if_pos h1]
  · intro h1
    rw [hstep, key, if_neg h1]

/-- The same index without the self-import match. -/
def c3wenv : ResolveEnv :=
  { FindRuleWithOverride := fun _ => none
    FindThirdPartyDependency := fun _ => none
    FindRulesByImportWithConfig := fun m =>
      if m = "a.b" then [{ label := la }, { label := lb }] else []
    isStdModule := fun _ => some false
    ValidateImportStatements := true
    PythonProjectRoot := "a" }

/-- Claim C3, witness for the amended theorem at a concrete input. -/
theorem c3_ambiguity_restriction_witness :
    resolvePossibleModule c3wenv frm0 modAB "a.b" =
      { outcome := .addDep (labelString
          ((((c3wenv.FindRulesByImportWithConfig "a.b").filter
              (fun r => strStartsWith r.label.pkg c3wenv.PythonProjectRoot)).headD
            default).label.Rel frm0.repo frm0.pkg)),
        errs := [], stdQuery := none, stdFatal := false } :=
  (c3_ambiguity_restriction c3wenv frm0 modAB "a.b" (by decide) (by decide)
    (by decide) (by decide)).1 (by decide)

/-! ## Claim C4 -/

/-- Claim C4, counterexample.  A pre-known (pre-resolved) dependency equal
to the label of the importing target itself is merged into the final set
without any self-filtering, and the `deps` attribute is written containing
it: the final dependency set does contain the identity of the target. -/
theorem c4_counterexample :
    labelString frm0 ∈ (Resolve envNone frm0 [] [labelString frm0] attrs0).deps ∧
    (Resolve envNone frm0 [] [labelString frm0] attrs0).hasFatalError = false ∧
    ((Resolve envNone frm0 [] [labelString frm0] attrs0).attrs "deps").isSome = true := by
  refine ⟨by decide, by decide, by decide⟩

/-- Claim C4, amended: self-matches are filtered on the index path and on
the override path — an index match whose label equals the importing target
resolves the import to nothing, and an override that defaults back to the
importing target is skipped without adding a dependency — but the pre-known
(pre-resolved) set is merged at the end of the pass without self-filtering,
so a self label contained in it does reach the final set. -/
theorem c4_self_filtering (env : ResolveEnv) (frm : Label) (mod : module)
    (m : String) :
    (env.FindRuleWithOverride m = none →
      env.FindThirdPartyDependency m = none →
      (env.FindRulesByImportWithConfig m).any (fun r => r.IsSelfImport frm) = true →
      resolvePossibleModule env frm mod m =
        { outcome := .resolvedNothing, errs := [], stdQuery := none,
          stdFatal := false }) ∧
    (∀ o : Label, env.FindRuleWithOverride m = some o →
      overrideDefault o frm = frm →
      resolvePossibleModule env frm mod m =
        { outcome := .nextCandidate, errs := [], stdQuery := none,
          stdFatal := false }) := by
  constructor
  · intro hov htp hany
    have hlen : ¬ (env.FindRulesByImportWithConfig m).length = 0 := by
      rw [List.any_eq_true] at hany
      obtain ⟨r, hr, _⟩ := hany
      have := List.length_pos.mpr (List.ne_nil_of_mem hr)
      omega
    simp only [resolvePossibleModule, hov, htp]
    rw [if_neg hlen]
    unfold resolveIndexMatches
    rw [hany]
    simp
  · intro o ho heq
    simp [resolvePossibleModule, ho, heq]

/-- An index in which the sole match for `a` is the importing target. -/
def c4wenv : ResolveEnv :=
  { FindRuleWithOverride := fun _ => none
    FindThirdPartyDependency := fun _ => none
    FindRulesByImportWithConfig := fun m =>
      if m = "a" then [{ label := frm0 }] else []
    isStdModule := fun _ => some false
    ValidateImportStatements := true
    PythonProjectRoot := "" }

/-- Claim C4, witness for the amended theorem at a concrete input. -/
theorem c4_self_filtering_witness :
    resolvePossibleModule c4wenv frm0 modAB "a" =
      { outcome := .resolvedNothing, errs := [], stdQuery := none,
        stdFatal := false } :=
  (c4_self_filtering c4wenv frm0 modAB "a").1 (by decide) (by decide) (by decide)

/-! ## Claim C5 -/

/-- Claim C5: for an import with N dotted components, the fallback sequence
has exactly N candidates, starting with the full name, where the candidate
at position i + 1 is the join of the first N - (i + 1) components (the
previous candidate with its last dotted component removed); candidates are
attempted in order and the loop stops at the first candidate that ends the
import, with the outcome of that candidate. -/
theorem c5_fallback_sequence (env : ResolveEnv) (frm : Label) (mod : module) :
    (possibleModules mod.Name).length = (splitOnDot mod.Name).length ∧
    (possibleModules mod.Name).head? = some mod.Name ∧
    (∀ i : Nat, ∀ hi : i + 1 < (possibleModules mod.Name).length,
      (possibleModules mod.Name).get ⟨i + 1, hi⟩ =
        String.intercalate "."
          ((splitOnDot mod.Name).take ((splitOnDot mod.Name).length - (i + 1)))) ∧
    (∀ (pre : List String) (m : String) (post : List String) (o : ImportOutcome),
      possibleModules mod.Name = pre ++ m :: post →
      (∀ x ∈ pre, (resolvePossibleModule env frm mod x).outcome = .nextCandidate) →
      stepStops (resolvePossibleModule env frm mod m).outcome = some o →
      (resolveModule env frm mod).outcome = o ∧
      (resolveModule env frm mod).attempted = pre ++ [m]) := by
  have hne : splitOnDot mod.Name ≠ [] := splitOnDot_ne_nil mod.Name
  have hpos : 0 < (splitOnDot mod.Name).length := List.length_pos.mpr hne
  refine ⟨?_, rfl, ?_, ?_⟩
  · show (mod.Name :: fallbackModulesGo (splitOnDot mod.Name).length
      (splitOnDot mod.Name)).length = (splitOnDot mod.Name).length
    rw [List.length_cons, length_fallbackModulesGo _ _ le_rfl]
    omega
  · intro i hi
    have hi2 : i < (fallbackModulesGo (splitOnDot mod.Name).length
        (splitOnDot mod.Name)).length := Nat.lt_of_succ_lt_succ hi
    rw [show (possibleModules mod.Name).get ⟨i + 1, hi⟩ =
      (fallbackModulesGo (splitOnDot mod.Name).length (splitOnDot mod.Name)).get
        ⟨i, hi2⟩ from rfl]
    rw [get_fallbackModulesGo _ _ le_rfl i hi2]
    congr 2
    omega
  · intro pre m post o hdec hpre hstop
    have hloop := possibleModuleLoop_stop env frm mod pre m post o hpre hstop
    constructor
    · show (possibleModuleLoop env frm mod (possibleModules mod.Name)).outcome = o
      rw [hdec]
      exact hloop.1
    · show (possibleModuleLoop env frm mod (possibleModules mod.Name)).attempted =
        pre ++ [m]
      rw [hdec]
      exact hloop.2

/-- An environment where `foo.bar` misses everywhere and `foo` is a
third-party module. -/
def c5wenv : ResolveEnv :=
  { FindRuleWithOverride := fun _ => none
    FindThirdPartyDependency := fun m => if m = "foo" then some "@pip//foo" else none
    FindRulesByImportWithConfig := fun _ => []
    isStdModule := fun _ => some false
    ValidateImportStatements := true
    PythonProjectRoot := "" }

/-- An import record for the dotted name `foo.bar`. -/
def c5wmod : module := { Name := "foo.bar", Filepath := "f.py", LineNumber := 7 }

/-- Claim C5, witness: on `foo.bar` the loop tries `foo.bar`, then stops at
`foo`, which resolves through the third-party map. -/
theorem c5_fallback_sequence_witness :
    (resolveModule c5wenv frm0 c5wmod).outcome = .dep "@pip//foo" ∧
    (resolveModule c5wenv frm0 c5wmod).attempted = ["foo.bar"] ++ ["foo"] :=
  (c5_fallback_sequence c5wenv frm0 c5wmod).2.2.2 ["foo.bar"] "foo" []
    (.dep "@pip//foo") (by decide) (by decide) (by decide)

/-! ## Claim C6 -/

/-- Claim C6: when an override directive exists for a candidate, neither the
third-party map nor the index is consulted for that candidate (the step
result is unchanged under arbitrary replacement of both collaborators), and
whenever the defaulted override label differs from the identity of the
importing target the override label is added as the dependency,
unconditionally. -/
theorem c6_override_unconditional (env : ResolveEnv) (frm : Label) (mod : module)
    (m : String) (o : Label) (ho : env.FindRuleWithOverride m = some o) :
    (∀ (tp : String → Option String) (ix : String → List FindResult),
      resolvePossibleModule
        { env with FindThirdPartyDependency := tp, FindRulesByImportWithConfig := ix }
        frm mod m = resolvePossibleModule env frm mod m) ∧
    (overrideDefault o frm ≠ frm →
      resolvePossibleModule env frm mod m =
        { outcome := .addDep (labelString (overrideRel (overrideDefault o frm) frm)),
          errs := [], stdQuery := none, stdFatal := false }) := by
  constructor
  · intro tp ix
    simp [resolvePossibleModule, ho]
  · intro hne
    simp [resolvePossibleModule, ho, hne]

/-- An environment with an override for `x` pointing at another target. -/
def c6wenv : ResolveEnv :=
  { FindRuleWithOverride := fun m =>
      if m = "x" then some { repo := "", pkg := "other", name := "lib" } else none
    FindThirdPartyDependency := fun _ => none
    FindRulesByImportWithConfig := fun _ => []
    isStdModule := fun _ => some false
    ValidateImportStatements := true
    PythonProjectRoot := "" }

/-- Claim C6, witness at a concrete input. -/
theorem c6_override_unconditional_witness :
    resolvePossibleModule c6wenv frm0 modAB "x" =
      { outcome := .addDep (labelString (overrideRel
          (overrideDefault { repo := "", pkg := "other", name := "lib" } frm0) frm0)),
        errs := [], stdQuery := none, stdFatal := false } :=
  (c6_override_unconditional c6wenv frm0 modAB "x"
    { repo := "", pkg := "other", name := "lib" } (by decide)).2 (by decide)

/-! ## Claim C7 -/

/-- Claim C7: when the classifier fails on some import of the pass, the pass
sets the fatal flag (`os.Exit(1)`), the attribute map of the rule is left
untouched (no `deps` write), and a classifier failure on a candidate
produces no per-import `ResolutionError` — only the fatal flag. -/
theorem c7_classifier_failure_fatal (env : ResolveEnv) (frm : Label)
    (modules : List module) (rd : List String) (attrs : String → Option bzlExpr)
    (mod : module) (hmem : mod ∈ modules)
    (hfat : (resolveModule env frm mod).stdFatal = true) :
    (Resolve env frm modules rd attrs).hasFatalError = true ∧
    (Resolve env frm modules rd attrs).attrs = attrs ∧
    (∀ m2 : String, env.FindRuleWithOverride m2 = none →
      env.FindThirdPartyDependency m2 = none →
      (env.FindRulesByImportWithConfig m2).length = 0 →
      env.isStdModule m2 = none →
      resolvePossibleModule env frm mod m2 =
        { outcome := .nextCandidate, errs := [], stdQuery := some m2,
          stdFatal := true }) := by
  have hany : (modules.map (resolveModule env frm)).any
      (fun r => r.stdFatal || importFailsValidation r) = true := by
    rw [List.any_eq_true]
    exact ⟨resolveModule env frm mod, List.mem_map_of_mem _ hmem, by simp [hfat]⟩
  refine ⟨?_, Resolve_attrs_fatal env frm modules rd attrs hany, ?_⟩
  · rw [Resolve_hasFatalError]
    exact hany
  · intro m2 h1 h2 h3 h4
    simp [resolvePossibleModule, h1, h2, h3, h4]

/-- An environment whose classifier always fails. -/
def c7env : ResolveEnv :=
  { FindRuleWithOverride := fun _ => none
    FindThirdPartyDependency := fun _ => none
    FindRulesByImportWithConfig := fun _ => []
    isStdModule := fun _ => none
    ValidateImportStatements := true
    PythonProjectRoot := "" }

/-- An import record for the single-component name `a`. -/
def c7mod : module := { Name := "a", Filepath := "a.py", LineNumber := 2 }

/-- Claim C7, witness at a concrete input. -/
theorem c7_classifier_failure_fatal_witness :
    (Resolve c7env frm0 [c7mod] [] attrs0).hasFatalError = true ∧
    (Resolve c7env frm0 [c7mod] [] attrs0).attrs = attrs0 :=
  ⟨(c7_classifier_failure_fatal c7env frm0 [c7mod] [] attrs0 c7mod (by decide)
      (by decide)).1,
   (c7_classifier_failure_fatal c7env frm0 [c7mod] [] attrs0 c7mod (by decide)
      (by decide)).2.1⟩

/-! ## Claim C8 -/

/-- Claim C8: the dependency set of a pass is strictly sorted in the
comparator order of the tree set (hence duplicate-free), and permuting the
list of import records does not change it. -/
theorem c8_sorted_dedup_order_independent (env : ResolveEnv) (frm : Label)
    (modules1 modules2 : List module) (rd : List String)
    (attrs : String → Option bzlExpr) :
    ((Resolve env frm modules1 rd attrs).deps.Pairwise
      (fun a b => strLt a b = true)) ∧
    (Resolve env frm modules1 rd attrs).deps.Nodup ∧
    (modules1.Perm modules2 →
      (Resolve env frm modules1 rd attrs).deps =
        (Resolve env frm modules2 rd attrs).deps) := by
  have hsorted : ∀ ms : List module,
      (Resolve env frm ms rd attrs).deps.Pairwise (fun a b => strLt a b = true) := by
    intro ms
    rw [Resolve_deps_eq]
    split
    · exact pairwise_foldl_depsAdd _ _ List.Pairwise.nil
    · exact pairwise_foldl_depsAdd _ _ (pairwise_foldl_depsAdd _ _ List.Pairwise.nil)
  refine ⟨hsorted modules1, ?_, ?_⟩
  · refine List.Pairwise.imp ?_ (hsorted modules1)
    intro a b hab heq
    rw [heq, strLt_irrefl] at hab
    exact absurd hab (by simp)
  · intro hp
    have hres : (modules1.map (resolveModule env frm)).Perm
        (modules2.map (resolveModule env frm)) := hp.map _
    have hfold : ((modules1.map (resolveModule env frm)).filterMap importDep).foldl
          depsAdd [] =
        ((modules2.map (resolveModule env frm)).filterMap importDep).foldl
          depsAdd [] :=
      foldl_depsAdd_perm _ _ [] (hres.filterMap _) List.Pairwise.nil
    rw [Resolve_deps_eq, Resolve_deps_eq, perm_any_eq _ _ _ hres, hfold]

/-- A third-party environment resolving `a` and `b`, without validation. -/
def c8env : ResolveEnv :=
  { FindRuleWithOverride := fun _ => none
    FindThirdPartyDependency := fun m =>
      if m = "b" then some "@pip//b" else if m = "a" then some "@pip//a" else none
    FindRulesByImportWithConfig := fun _ => []
    isStdModule := fun _ => some false
    ValidateImportStatements := false
    PythonProjectRoot := "" }

/-- An import record for the name `b`. -/
def c8m1 : module := { Name := "b", Filepath := "f.py", LineNumber := 1 }

/-- An import record for the name `a`. -/
def c8m2 : module := { Name := "a", Filepath := "f.py", LineNumber := 2 }

/-- Claim C8, witness: the two discovery orders give the same set. -/
theorem c8_sorted_dedup_order_independent_witness :
    (Resolve c8env frm0 [c8m1, c8m2] [] attrs0).deps =
      (Resolve c8env frm0 [c8m2, c8m1] [] attrs0).deps :=
  (c8_sorted_dedup_order_independent c8env frm0 [c8m1, c8m2] [c8m2, c8m1] []
    attrs0).2.2 (by decide)

/-! ## Claim C9 -/

/-- Claim C9: when the merged dependency set at the end of a pass is empty,
the attribute map of the rule is completely unchanged — no `deps` attribute
is written and no other attribute is touched. -/
theorem c9_empty_set_no_write (env : ResolveEnv) (frm : Label)
    (modules : List module) (rd : List String) (attrs : String → Option bzlExpr)
    (h : (Resolve env frm modules rd attrs).deps = []) :
    ∀ k : String, (Resolve env frm modules rd attrs).attrs k = attrs k := by
  intro k
  by_cases hf : (modules.map (resolveModule env frm)).any
      (fun r => r.stdFatal || importFailsValidation r) = true
  · rw [Resolve_attrs_fatal env frm modules rd attrs hf]
  · have hf2 : (modules.map (resolveModule env frm)).any
        (fun r => r.stdFatal || importFailsValidation r) = false := by
      simpa using hf
    rw [Resolve_attrs_ok env frm modules rd attrs hf2]
    rw [if_pos (by rw [h]; rfl)]

/-- Claim C9, witness: an empty pass leaves the `deps` attribute unset. -/
theorem c9_empty_set_no_write_witness :
    (Resolve envNone frm0 [] [] attrs0).attrs "deps" = none :=
  (c9_empty_set_no_write envNone frm0 [] [] attrs0 (by decide) "deps").trans rfl

/-! ## Claim C10 -/

/-- An environment producing, for the import `a.b.c`: an ambiguity error on
candidate `a.b.c`, a classifier failure on candidate `a.b`, and a
third-party resolution on candidate `a`. -/
def c10env : ResolveEnv :=
  { FindRuleWithOverride := fun _ => none
    FindThirdPartyDependency := fun m => if m = "a" then some "@pip//a" else none
    FindRulesByImportWithConfig := fun m =>
      if m = "a.b.c" then [{ label := la }, { label := lb }] else []
    isStdModule := fun _ => none
    ValidateImportStatements := true
    PythonProjectRoot := "zzz" }

/-- An import record for the dotted name `a.b.c`. -/
def c10mod : module := { Name := "a.b.c", Filepath := "x.py", LineNumber := 3 }

/-- Claim C10, counterexample.  The import resolves at its last candidate,
its recorded ambiguity error is indeed discarded (the pass reports no
validation error), but the classifier failure on the middle candidate still
marks the whole pass as failed: the pass is marked as failed on account of
an import that resolved. -/
theorem c10_counterexample :
    (resolveModule c10env frm0 c10mod).outcome = .dep "@pip//a" ∧
    (resolveModule c10env frm0 c10mod).errs ≠ [] ∧
    emittedValidationErrs (Resolve c10env frm0 [c10mod] [] attrs0) = [] ∧
    (Resolve c10env frm0 [c10mod] [] attrs0).hasFatalError = true := by
  refine ⟨by decide, by decide, by decide, by decide⟩

/-- Claim C10, amended: when an import resolves at some candidate — whether
to a dependency or to nothing (a standard-library hit or a self-import
match) — the errors recorded for earlier candidates are discarded: that
record does not fail validation, the pass reports no validation error for
it, and the only failure contribution left is the classifier-failure flag,
which is not cleared by the later resolution. -/
theorem c10_resolved_discards_errors (env : ResolveEnv) (frm : Label)
    (mod : module)
    (h : (resolveModule env frm mod).outcome ≠ .exhausted) :
    importFailsValidation (resolveModule env frm mod) = false ∧
    (∀ (rd : List String) (attrs : String → Option bzlExpr),
      emittedValidationErrs (Resolve env frm [mod] rd attrs) = [] ∧
      (Resolve env frm [mod] rd attrs).hasFatalError =
        (resolveModule env frm mod).stdFatal) := by
  have hfv : importFailsValidation (resolveModule env frm mod) = false := by
    simp [importFailsValidation, h]
  refine ⟨hfv, fun rd attrs => ⟨?_, ?_⟩⟩
  · simp [emittedValidationErrs, Resolve_results, hfv]
  · rw [Resolve_hasFatalError]
    simp [hfv]

/-- An environment producing, for the import `a.b`: an ambiguity error on
candidate `a.b`, then a standard-library hit on candidate `a`, so that the
record resolves to nothing after an error was recorded. -/
def c10wenv : ResolveEnv :=
  { FindRuleWithOverride := fun _ => none
    FindThirdPartyDependency := fun _ => none
    FindRulesByImportWithConfig := fun m =>
      if m = "a.b" then [{ label := la }, { label := lb }] else []
    isStdModule := fun m => if m = "a" then some true else some false
    ValidateImportStatements := true
    PythonProjectRoot := "zzz" }

/-- Claim C10, witness for the amended theorem at a concrete input that
resolves to nothing: the ambiguity error recorded on `a.b` is discarded by
the standard-library hit on `a`, the pass reports no validation error and
is not marked failed. -/
theorem c10_resolved_discards_errors_witness :
    importFailsValidation (resolveModule c10wenv frm0 modAB) = false ∧
    (emittedValidationErrs (Resolve c10wenv frm0 [modAB] [] attrs0) = [] ∧
      (Resolve c10wenv frm0 [modAB] [] attrs0).hasFatalError =
        (resolveModule c10wenv frm0 modAB).stdFatal) :=
  ⟨(c10_resolved_discards_errors c10wenv frm0 modAB (by decide)).1,
   (c10_resolved_discards_errors c10wenv frm0 modAB (by decide)).2 [] attrs0⟩
